import Mathlib

/-!
Shallow embedding of `pkg/storage/stores/shipper/gateway_client.go`
(the Loki Index Gateway client) and proofs about its query-dispatch path.

The embedding models:
* the batch splitter in `GatewayClient.QueryPages`,
* the per-sub-batch preparation in `GatewayClient.doQueries`
  (key-to-query map and wire query list),
* the stream consumption in `GatewayClient.clientDoQueries`,
* the ring-mode failover loop in `GatewayClient.ringModeDoQueries`,
* the read batch iterator (`readBatch` / `grpcIter`),
* the unsupported write-path stubs.

External collaborators (the query-key codec `shipper_util.QueryKey`, the
tenant extractor, the ring, the connection pool, gRPC streams and the
random shuffle) are modelled as explicit parameters / environment fields,
matching the spec's description of them as boundary collaborators.
Go byte slices are modelled as `List Nat`, Go maps as association lists
with replace-on-insert (so the list length matches the Go map's size),
Go panics and error returns as `Except`.
-/

set_option maxRecDepth 8192

namespace GatewayClientModel

/-- Go `[]byte`. -/
abbrev Bytes := List Nat

/-- The caller-facing query descriptor `index.Query`. -/
structure Query where
  tableName : String
  hashValue : String
  rangeValuePrefix : Bytes
  rangeValueStart : Bytes
  valueEqual : Bytes
  deriving Repr, DecidableEq

/-- The wire-format query descriptor `indexgatewaypb.IndexQuery`. -/
structure IndexQuery where
  tableName : String
  hashValue : String
  rangeValuePrefix : Bytes
  rangeValueStart : Bytes
  valueEqual : Bytes
  deriving Repr, DecidableEq

/-- One `(RangeValue, Value)` row of a `QueryIndexResponse`. -/
structure Row where
  rangeValue : Bytes
  value : Bytes
  deriving Repr, DecidableEq

/-- The response unit `indexgatewaypb.QueryIndexResponse`: a correlation key
plus a row group. -/
structure QueryIndexResponse where
  queryKey : String
  rows : List Row
  deriving Repr, DecidableEq

/-- The constant `maxQueriesPerGrpc = 100`. -/
def maxQueriesPerGrpc : Nat := 100

/-- The constant `maxConcurrentGrpcCalls = 10`. -/
def maxConcurrentGrpcCalls : Nat := 10

/-- The job count computed in `QueryPages` for the oversized case:
`len/cap`, incremented when `len%cap != 0`. -/
def jobsCount (n : Nat) : Nat :=
  n / maxQueriesPerGrpc + (if n % maxQueriesPerGrpc ≠ 0 then 1 else 0)

/-- The Go slice `queries[a:b]` (for `a ≤ b ≤ len`). -/
def goSlice (queries : List Query) (a b : Nat) : List Query :=
  (queries.drop a).take (b - a)

/-- The list of sub-batches dispatched by `GatewayClient.QueryPages`: one direct
dispatch when the batch is within the per-call cap, otherwise `jobsCount` jobs
where job `idx` dispatches `queries[idx*cap : min((idx+1)*cap, len)]`.
Each element corresponds to exactly one `doQueries` invocation. -/
def queryPagesJobs (queries : List Query) : List (List Query) :=
  if queries.length ≤ maxQueriesPerGrpc then
    [queries]
  else
    (List.range (jobsCount queries.length)).map fun idx =>
      goSlice queries (idx * maxQueriesPerGrpc)
        (min ((idx + 1) * maxQueriesPerGrpc) queries.length)

/-- A key-to-query association with at most one entry per key, modelling the
Go `map[string]index.Query`. -/
abbrev QueryKeyMap := List (String × Query)

/-- Go map assignment `m[k] = q`: replaces the entry for `k` when present,
otherwise appends a fresh entry (so the length is the Go map's size). -/
def insertQK (m : QueryKeyMap) (k : String) (q : Query) : QueryKeyMap :=
  if m.any (fun p => p.1 = k) then
    m.map (fun p => if p.1 = k then (k, q) else p)
  else
    m ++ [(k, q)]

/-- Go map lookup `m[k]`. -/
def lookupQK (m : QueryKeyMap) (k : String) : Option Query :=
  (m.find? (fun p => p.1 = k)).map (fun p => p.2)

/-- The `queryKeyQueryMap` built by `doQueries`: for each query in order,
`queryKeyQueryMap[shipper_util.QueryKey(query)] = query`. The key codec `qk`
models the external `shipper_util.QueryKey`. -/
def buildQueryKeyMap (qk : Query → String) (queries : List Query) : QueryKeyMap :=
  queries.foldl (fun m query => insertQK m (qk query) query) []

/-- The translation of one `index.Query` into the wire `IndexQuery` performed
inside the loop of `doQueries`, field by field. -/
def toIndexQuery (query : Query) : IndexQuery :=
  { tableName := query.tableName
    hashValue := query.hashValue
    rangeValuePrefix := Query.rangeValuePrefix query
    rangeValueStart := query.rangeValueStart
    valueEqual := query.valueEqual }

/-- The `gatewayQueries` slice built by `doQueries`: one wire descriptor
appended per input query, in input order. -/
def buildGatewayQueries (queries : List Query) : List IndexQuery :=
  queries.map toIndexQuery

/-- Keys of the map. -/
def keysQK (m : QueryKeyMap) : List String := m.map (fun p => p.1)

/-- The caller-facing view over one response's row group (`readBatch`). -/
structure readBatch where
  resp : QueryIndexResponse
  deriving Repr, DecidableEq

/-- The callback type `index.QueryPagesCallback`, modelled as a pure
continuation predicate. -/
abbrev Callback := Query → readBatch → Bool

/-- One outcome of `streamer.Recv()`: either a response unit or a transport
error. The end of the event list models `io.EOF`. -/
inductive RecvEvent where
  | resp (r : QueryIndexResponse)
  | recvError (e : String)
  deriving Repr, DecidableEq

/-- The receive loop of `clientDoQueries`, instrumented with the list of
`(query, response)` pairs handed to the callback, in delivery order.
`io.EOF` (end of the event list) breaks the loop with success; a `Recv`
error is returned; a response whose key is absent from the map returns the
`unexpected ... QueryKey received` error; a callback returning `false`
returns success immediately. -/
def consumeStream (m : QueryKeyMap) (callback : Callback) :
    List RecvEvent → Except String Unit × List (Query × QueryIndexResponse)
  | [] => (.ok (), [])
  | .recvError e :: _ => (.error e, [])
  | .resp r :: rest =>
    match lookupQK m r.queryKey with
    | none => (.error ("unexpected " ++ r.queryKey ++ " QueryKey received"), [])
    | some q =>
      if callback q { resp := r } then
        ((consumeStream m callback rest).1, (q, r) :: (consumeStream m callback rest).2)
      else
        (.ok (), [(q, r)])

/-- The behaviour of one gRPC client handle: `QueryIndex` either fails to
open the stream or yields the stream's whole event sequence. -/
structure ClientBehavior where
  queryIndex : List IndexQuery → Except String (List RecvEvent)

/-- The function `GatewayClient.clientDoQueries`: open the stream (wrapping an
opening failure with `query index`), then run the receive loop. The second
component is the callback delivery trace. -/
def clientDoQueries (client : ClientBehavior) (gatewayQueries : List IndexQuery)
    (queryKeyQueryMap : QueryKeyMap) (callback : Callback) :
    Except String Unit × List (Query × QueryIndexResponse) :=
  match client.queryIndex gatewayQueries with
  | .error e => (.error ("query index: " ++ e), [])
  | .ok events => consumeStream queryKeyQueryMap callback events

/-- The replication policy argument of `ring.Get`; the client always passes
`ring.WriteNoExtend`. -/
inductive RingPolicy where
  | writeNoExtend
  | other
  deriving Repr, DecidableEq

/-- The external collaborators of `ringModeDoQueries`: tenant extraction from
the context, the token codec `util.TokenFor`, the ring lookup (already
composed with `GetAddresses`), the `rand.Shuffle` permutation drawn for this
call, and the connection pool. -/
structure RingEnv where
  tenantID : Except String String
  tokenFor : String → String → Nat
  ringGet : Nat → RingPolicy → Except String (List String)
  shuffle : List String → List String
  getClientFor : String → Except String ClientBehavior

/-- The failover loop of `ringModeDoQueries`: for each address in order, get
a client from the pool (failure logged and skipped), run `clientDoQueries`
(failure logged and skipped); the first fully successful address returns
`nil`; exhaustion returns the fixed replication-set error. The second
component is the list of contacted addresses, in order. -/
def ringLoop (env : RingEnv) (gatewayQueries : List IndexQuery)
    (queryKeyQueryMap : QueryKeyMap) (callback : Callback) :
    List String → Except String Unit × List String
  | [] => (.error "index gateway replicationSet clientDoQueries", [])
  | addr :: rest =>
    match env.getClientFor addr with
    | .error _ =>
      let r := ringLoop env gatewayQueries queryKeyQueryMap callback rest
      (r.1, addr :: r.2)
    | .ok client =>
      match (clientDoQueries client gatewayQueries queryKeyQueryMap callback).1 with
      | .error _ =>
        let r := ringLoop env gatewayQueries queryKeyQueryMap callback rest
        (r.1, addr :: r.2)
      | .ok _ => (.ok (), [addr])

/-- The function `GatewayClient.ringModeDoQueries`: extract the tenant
(wrapping a failure with `index gateway client get tenant ID`), resolve
`ring.Get(util.TokenFor(userID, ""), ring.WriteNoExtend, ...)` (wrapping a
failure with `index gateway get ring`), shuffle the addresses, then run the
failover loop. The second component is the list of contacted addresses. -/
def ringModeDoQueries (env : RingEnv) (gatewayQueries : List IndexQuery)
    (queryKeyQueryMap : QueryKeyMap) (callback : Callback) :
    Except String Unit × List String :=
  match env.tenantID with
  | .error e => (.error ("index gateway client get tenant ID: " ++ e), [])
  | .ok userID =>
    match env.ringGet (env.tokenFor userID "") RingPolicy.writeNoExtend with
    | .error e => (.error ("index gateway get ring: " ++ e), [])
    | .ok addrs =>
      ringLoop env gatewayQueries queryKeyQueryMap callback (env.shuffle addrs)

/-- The cursor `grpcIter`: an index (starting at `-1`) over the rows of one
response. -/
structure grpcIter where
  i : Int
  resp : QueryIndexResponse
  deriving Repr, DecidableEq

/-- The method `readBatch.Iterator()`: a fresh cursor positioned before the
first row. -/
def readBatch.iterator (r : readBatch) : grpcIter :=
  { i := -1, resp := r.resp }

/-- The method `grpcIter.Next()`: `b.i++; return b.i < len(b.Rows)`. -/
def grpcIter.next (b : grpcIter) : grpcIter × Bool :=
  let b' : grpcIter := { b with i := b.i + 1 }
  (b', b'.i < (b'.resp.rows.length : Int))

/-- The method `grpcIter.RangeValue()`: `b.Rows[b.i].RangeValue`; `none`
models the Go panic on an out-of-range index. -/
def grpcIter.rangeValue (b : grpcIter) : Option Bytes :=
  if b.i < 0 then none
  else (b.resp.rows.get? b.i.toNat).map Row.rangeValue

/-- The method `grpcIter.Value()`: `b.Rows[b.i].Value`; `none` models the Go
panic on an out-of-range index. -/
def grpcIter.value (b : grpcIter) : Option Bytes :=
  if b.i < 0 then none
  else (b.resp.rows.get? b.i.toNat).map Row.value

/-- The cursor after `n` calls to `Next`. -/
def iterAfter (b : grpcIter) : Nat → grpcIter
  | 0 => b
  | n + 1 => (iterAfter b n).next.1

/-- The boolean returned by the `(n+1)`-th call to `Next` on `b`. -/
def nthNext (b : grpcIter) (n : Nat) : Bool :=
  (iterAfter b n).next.2

/-- The stub `GatewayClient.NewWriteBatch`: `panic("unsupported")`, modelled
as a distinguished failure. -/
def newWriteBatch : Except String Unit :=
  .error "unsupported"

/-- The stub `GatewayClient.BatchWrite`: `panic("unsupported")` for every
batch, modelled as a distinguished failure. -/
def batchWrite {α : Type} (_batch : α) : Except String Unit :=
  .error "unsupported"

/-- The `doQueries` operating mode routing (`s.cfg.Mode`). -/
inductive Mode where
  | simpleMode
  | ringMode
  deriving Repr, DecidableEq

/-- The function `GatewayClient.doQueries`: build the key-to-query map and
the wire query list, then route by the static operating mode. -/
def doQueries (qk : Query → String) (mode : Mode) (simpleClient : ClientBehavior)
    (env : RingEnv) (queries : List Query) (callback : Callback) :
    Except String Unit :=
  let queryKeyQueryMap := buildQueryKeyMap qk queries
  let gatewayQueries := buildGatewayQueries queries
  match mode with
  | .ringMode => (ringModeDoQueries env gatewayQueries queryKeyQueryMap callback).1
  | .simpleMode => (clientDoQueries simpleClient gatewayQueries queryKeyQueryMap callback).1

/-- The `(query, response)` pairs a fully consumed event prefix delivers. -/
def deliveredOf (m : QueryKeyMap) (events : List RecvEvent) :
    List (Query × QueryIndexResponse) :=
  events.filterMap fun e =>
    match e with
    | .resp r => (lookupQK m r.queryKey).map fun q => (q, r)
    | .recvError _ => none

/-- Every event of the list is a response with a known key on which the
callback elects to continue. -/
def ConsumesAll (m : QueryKeyMap) (callback : Callback) (events : List RecvEvent) : Prop :=
  ∀ e ∈ events, ∃ r q, e = RecvEvent.resp r ∧ lookupQK m r.queryKey = some q ∧
    callback q { resp := r } = true

/-- The combined outcome of one address attempt in the failover loop: get a
pool client, then run `clientDoQueries` through it. -/
def attemptResult (env : RingEnv) (gatewayQueries : List IndexQuery)
    (queryKeyQueryMap : QueryKeyMap) (callback : Callback) (addr : String) :
    Except String Unit :=
  match env.getClientFor addr with
  | .error e => .error e
  | .ok client => (clientDoQueries client gatewayQueries queryKeyQueryMap callback).1

/-- A concrete query used by witnesses. -/
def dummyQuery : Query :=
  { tableName := "t", hashValue := "h", rangeValuePrefix := [],
    rangeValueStart := [], valueEqual := [] }

/-- A concrete query used by witnesses. -/
def witnessQuery1 : Query := { dummyQuery with hashValue := "h1" }

/-- A concrete query used by witnesses. -/
def witnessQuery2 : Query := { dummyQuery with hashValue := "h2" }

/-- A client whose stream opens and immediately ends (`io.EOF`). -/
def okClient : ClientBehavior := ⟨fun _ => .ok []⟩

/-- A ring environment where only address `b` yields a working client. -/
def witnessRingEnv : RingEnv :=
  { tenantID := .ok "tenant"
    tokenFor := fun _ _ => 0
    ringGet := fun _ _ => .ok ["a", "b", "c"]
    shuffle := id
    getClientFor := fun a => if a = "b" then .ok okClient else .error "dial failure" }

/-- A ring environment whose tenant extraction fails. -/
def tenantFailEnv : RingEnv :=
  { tenantID := .error "no org id"
    tokenFor := fun _ _ => 0
    ringGet := fun _ _ => .ok []
    shuffle := id
    getClientFor := fun _ => .error "unused" }

/-- A ring environment whose ring resolution fails. -/
def ringFailEnv : RingEnv :=
  { tenantID := .ok "tenant"
    tokenFor := fun _ _ => 0
    ringGet := fun _ _ => .error "at least 1 healthy replica required"
    shuffle := id
    getClientFor := fun _ => .error "unused" }

/-- A concrete row used by witnesses. -/
def witnessRow1 : Row := { rangeValue := [1], value := [2] }

/-- A concrete row used by witnesses. -/
def witnessRow2 : Row := { rangeValue := [3], value := [4] }

/-- A concrete read batch with two rows, used by witnesses. -/
def witnessReadBatch : readBatch :=
  { resp := { queryKey := "h1", rows := [witnessRow1, witnessRow2] } }

/-! ## Lemmas about the batch splitter -/

theorem jobsCount_eq_ceil (n : Nat) :
    jobsCount n = (n + (maxQueriesPerGrpc - 1)) / maxQueriesPerGrpc := by
  unfold jobsCount maxQueriesPerGrpc
  by_cases hr : n % 100 = 0 <;> simp [hr] <;> omega

theorem queryPagesJobs_small (queries : List Query)
    (h : queries.length ≤ maxQueriesPerGrpc) :
    queryPagesJobs queries = [queries] := by
  simp [queryPagesJobs, h]

theorem queryPagesJobs_length_of_large (queries : List Query)
    (h : maxQueriesPerGrpc < queries.length) :
    (queryPagesJobs queries).length = jobsCount queries.length := by
  simp [queryPagesJobs, Nat.not_le.mpr h]

theorem queryPagesJobs_get_of_large (queries : List Query)
    (h : maxQueriesPerGrpc < queries.length)
    (i : Nat) (hi : i < (queryPagesJobs queries).length) :
    (queryPagesJobs queries).get ⟨i, hi⟩ =
      goSlice queries (i * maxQueriesPerGrpc)
        (min ((i + 1) * maxQueriesPerGrpc) queries.length) := by
  simp [queryPagesJobs, Nat.not_le.mpr h] at hi ⊢

theorem goSlice_length (queries : List Query) (a b : Nat)
    (hb : b ≤ queries.length) :
    (goSlice queries a b).length = b - a := by
  simp [goSlice]
  omega

theorem queryPagesJobs_le_cap (queries : List Query) :
    ∀ job ∈ queryPagesJobs queries, job.length ≤ maxQueriesPerGrpc := by
  intro job hjob
  by_cases h : queries.length ≤ maxQueriesPerGrpc
  · simp [queryPagesJobs, h] at hjob
    simpa [hjob] using h
  · simp [queryPagesJobs, h] at hjob
    obtain ⟨i, _, rfl⟩ := hjob
    have := goSlice_length queries (i * maxQueriesPerGrpc)
      (min ((i + 1) * maxQueriesPerGrpc) queries.length) (by omega)
    rw [this]
    simp only [maxQueriesPerGrpc]
    omega

/-! ## Lemmas about the key-to-query map -/

theorem lookupQK_insertQK_self (m : QueryKeyMap) (k : String) (q : Query) :
    lookupQK (insertQK m k q) k = some q := by
  unfold insertQK
  by_cases h : m.any (fun p => p.1 = k)
  · simp only [h, if_pos]
    unfold lookupQK
    induction m with
    | nil => simp at h
    | cons p m ih =>
      by_cases hp : p.1 = k
      · simp [hp, List.find?]
      · simp only [List.map_cons, if_neg hp]
        rw [List.find?_cons_of_neg _ (by simpa using hp)]
        apply ih
        simpa [List.any_cons, hp] using h
  · simp only [h, if_neg, Bool.not_eq_true]
    unfold lookupQK
    induction m with
    | nil => simp [List.find?]
    | cons p m ih =>
      have hp : ¬ p.1 = k := by
        intro hk
        simp [List.any_cons, hk] at h
      rw [List.cons_append, List.find?_cons_of_neg _ (by simpa using hp)]
      apply ih
      simpa [List.any_cons, hp] using h

theorem find?_map_overwrite (m : QueryKeyMap) (k k' : String) (q : Query)
    (hk : k' ≠ k) :
    List.find? (fun p => p.1 = k') (m.map (fun p => if p.1 = k then (k, q) else p)) =
      List.find? (fun p => p.1 = k') m := by
  induction m with
  | nil => simp
  | cons p m ih =>
    by_cases hp : p.1 = k
    · simp only [List.map_cons, if_pos hp]
      rw [List.find?_cons_of_neg _ (by simpa using Ne.symm hk),
        List.find?_cons_of_neg _ (by simp [hp]; exact fun hc => hk (hc ▸ rfl))]
      exact ih
    · simp only [List.map_cons, if_neg hp]
      by_cases hp' : p.1 = k'
      · rw [List.find?_cons_of_pos _ (by simpa using hp'),
          List.find?_cons_of_pos _ (by simpa using hp')]
      · rw [List.find?_cons_of_neg _ (by simpa using hp'),
          List.find?_cons_of_neg _ (by simpa using hp')]
        exact ih

theorem lookupQK_insertQK_other (m : QueryKeyMap) (k k' : String) (q : Query)
    (hk : k' ≠ k) : lookupQK (insertQK m k q) k' = lookupQK m k' := by
  unfold insertQK
  by_cases h : m.any (fun p => p.1 = k)
  · simp only [h, if_pos]
    unfold lookupQK
    rw [find?_map_overwrite m k k' q hk]
  · simp only [h, if_neg, Bool.not_eq_true]
    unfold lookupQK
    rw [List.find?_append]
    have : List.find? (fun p => p.1 = k') [(k, q)] = none := by
      simp [List.find?, hk.symm]
    simp [this]

theorem mem_insertQK (m : QueryKeyMap) (k : String) (q : Query) (p : String × Query)
    (hp : p ∈ insertQK m k q) : p ∈ m ∨ p = (k, q) := by
  unfold insertQK at hp
  by_cases h : m.any (fun p => p.1 = k)
  · simp only [h, if_pos] at hp
    obtain ⟨p', hp', heq⟩ := List.mem_map.mp hp
    by_cases hk : p'.1 = k
    · right
      simpa [hk] using heq.symm
    · left
      rw [if_neg hk] at heq
      exact heq ▸ hp'
  · simp only [h, if_neg, Bool.not_eq_true] at hp
    rcases List.mem_append.mp hp with h' | h'
    · exact Or.inl h'
    · exact Or.inr (by simpa using h')

theorem length_insertQK_of_fresh (m : QueryKeyMap) (k : String) (q : Query)
    (h : ¬ m.any (fun p => p.1 = k)) :
    (insertQK m k q).length = m.length + 1 := by
  simp [insertQK, h]

theorem keysQK_insertQK_of_fresh (m : QueryKeyMap) (k : String) (q : Query)
    (h : ¬ m.any (fun p => p.1 = k)) :
    keysQK (insertQK m k q) = keysQK m ++ [k] := by
  simp [insertQK, h, keysQK]

theorem any_eq_mem_keysQK (m : QueryKeyMap) (k : String) :
    m.any (fun p => p.1 = k) = true ↔ k ∈ keysQK m := by
  simp [List.any_eq_true, keysQK, List.mem_map]

theorem lookupQK_foldl_of_fresh (qk : Query → String) (qs : List Query)
    (k : String) (hk : ∀ q ∈ qs, qk q ≠ k) :
    ∀ m : QueryKeyMap,
      lookupQK (qs.foldl (fun m q => insertQK m (qk q) q) m) k = lookupQK m k := by
  induction qs with
  | nil => intro m; rfl
  | cons q' qs ih =>
    intro m
    rw [List.foldl_cons]
    rw [ih (fun q hq => hk q (List.mem_cons_of_mem _ hq))]
    exact lookupQK_insertQK_other m (qk q') k q' (Ne.symm (hk q' (List.mem_cons_self _ _)))

theorem lookupQK_foldl_of_nodup (qk : Query → String) (qs : List Query)
    (hnd : (qs.map qk).Nodup) (q : Query) (hq : q ∈ qs) :
    ∀ m : QueryKeyMap,
      lookupQK (qs.foldl (fun m q => insertQK m (qk q) q) m) (qk q) = some q := by
  induction qs with
  | nil => cases hq
  | cons q' qs ih =>
    intro m
    rw [List.map_cons, List.nodup_cons] at hnd
    rw [List.foldl_cons]
    rcases List.mem_cons.mp hq with rfl | hq'
    · rw [lookupQK_foldl_of_fresh qk qs (qk q)
        (fun x hx hc => hnd.1 (hc ▸ List.mem_map_of_mem qk hx))]
      exact lookupQK_insertQK_self m (qk q) q
    · exact ih hnd.2 hq' _

theorem length_foldl_build (qk : Query → String) (qs : List Query)
    (hnd : (qs.map qk).Nodup) :
    ∀ m : QueryKeyMap, (∀ q ∈ qs, qk q ∉ keysQK m) →
      (qs.foldl (fun m q => insertQK m (qk q) q) m).length = m.length + qs.length := by
  induction qs with
  | nil => intro m _; simp
  | cons q' qs ih =>
    intro m hfresh
    rw [List.map_cons, List.nodup_cons] at hnd
    rw [List.foldl_cons]
    have hf : ¬ m.any (fun p => p.1 = qk q') := by
      intro h
      exact hfresh q' (List.mem_cons_self _ _) ((any_eq_mem_keysQK m (qk q')).mp h)
    have := ih hnd.2 (insertQK m (qk q') q') ?_
    · rw [this, length_insertQK_of_fresh m (qk q') q' hf]
      simp [Nat.add_assoc, Nat.add_comm 1]
    · intro q hq
      rw [keysQK_insertQK_of_fresh m (qk q') q' hf]
      intro hmem
      rcases List.mem_append.mp hmem with h' | h'
      · exact hfresh q (List.mem_cons_of_mem _ hq) h'
      · exact hnd.1 (List.mem_singleton.mp h' ▸ List.mem_map_of_mem qk hq)

theorem mem_foldl_build (qk : Query → String) (qs : List Query) (p : String × Query) :
    ∀ m : QueryKeyMap, p ∈ qs.foldl (fun m q => insertQK m (qk q) q) m →
      p ∈ m ∨ ∃ q ∈ qs, p = (qk q, q) := by
  induction qs with
  | nil => intro m h; exact Or.inl h
  | cons q' qs ih =>
    intro m h
    rw [List.foldl_cons] at h
    rcases ih _ h with h' | h'
    · rcases mem_insertQK m (qk q') q' p h' with h'' | h''
      · exact Or.inl h''
      · exact Or.inr ⟨q', List.mem_cons_self _ _, h''⟩
    · obtain ⟨q, hq, hp⟩ := h'
      exact Or.inr ⟨q, List.mem_cons_of_mem _ hq, hp⟩

theorem lookupQK_buildQueryKeyMap_of_nodup (qk : Query → String) (qs : List Query)
    (hnd : (qs.map qk).Nodup) (q : Query) (hq : q ∈ qs) :
    lookupQK (buildQueryKeyMap qk qs) (qk q) = some q :=
  lookupQK_foldl_of_nodup qk qs hnd q hq []

theorem length_buildQueryKeyMap_of_nodup (qk : Query → String) (qs : List Query)
    (hnd : (qs.map qk).Nodup) :
    (buildQueryKeyMap qk qs).length = qs.length := by
  have := length_foldl_build qk qs hnd [] (by intro q _ h; cases h)
  simpa [buildQueryKeyMap] using this

theorem lookupQK_buildQueryKeyMap_mem (qk : Query → String) (qs : List Query)
    (k : String) (v : Query) (h : lookupQK (buildQueryKeyMap qk qs) k = some v) :
    v ∈ qs ∧ k = qk v := by
  unfold lookupQK at h
  obtain ⟨p, hfind, rfl⟩ := Option.map_eq_some'.mp h
  have hmem := List.mem_of_find?_eq_some hfind
  have hkey : p.1 = k := by simpa using List.find?_some hfind
  rcases mem_foldl_build qk qs p [] hmem with h' | h'
  · cases h'
  · obtain ⟨q, hq, rfl⟩ := h'
    exact ⟨hq, hkey.symm⟩

/-! ## Lemmas about the stream consumption loop -/

theorem consumeStream_append_of_consumes (m : QueryKeyMap) (cb : Callback)
    (pre rest : List RecvEvent) (h : ConsumesAll m cb pre) :
    consumeStream m cb (pre ++ rest) =
      ((consumeStream m cb rest).1, deliveredOf m pre ++ (consumeStream m cb rest).2) := by
  induction pre with
  | nil => simp [deliveredOf]
  | cons e pre ih =>
    obtain ⟨r, q, rfl, hq, hcb⟩ := h e (List.mem_cons_self _ _)
    have hrest := ih (fun e he => h e (List.mem_cons_of_mem _ he))
    have hdel : deliveredOf m (RecvEvent.resp r :: pre) = (q, r) :: deliveredOf m pre := by
      simp [deliveredOf, hq]
    rw [List.cons_append]
    simp only [consumeStream, hq, hcb, if_true]
    rw [hrest, hdel]
    simp

/-! ## Lemmas about the ring failover loop -/

theorem ringLoop_cons_fail (env : RingEnv) (gq : List IndexQuery) (m : QueryKeyMap)
    (cb : Callback) (addr : String) (rest : List String)
    (h : attemptResult env gq m cb addr ≠ .ok ()) :
    ringLoop env gq m cb (addr :: rest) =
      ((ringLoop env gq m cb rest).1, addr :: (ringLoop env gq m cb rest).2) := by
  cases hget : env.getClientFor addr with
  | error e => simp [ringLoop, hget]
  | ok client =>
    cases hdo : (clientDoQueries client gq m cb).1 with
    | error e => simp [ringLoop, hget, hdo]
    | ok u => exact absurd (by simp [attemptResult, hget, hdo]) h

theorem ringLoop_cons_success (env : RingEnv) (gq : List IndexQuery) (m : QueryKeyMap)
    (cb : Callback) (addr : String) (rest : List String)
    (h : attemptResult env gq m cb addr = .ok ()) :
    ringLoop env gq m cb (addr :: rest) = (.ok (), [addr]) := by
  cases hget : env.getClientFor addr with
  | error e => simp [attemptResult, hget] at h
  | ok client =>
    cases hdo : (clientDoQueries client gq m cb).1 with
    | error e => simp [attemptResult, hget, hdo] at h
    | ok u => simp [ringLoop, hget, hdo]

theorem ringLoop_all_fail (env : RingEnv) (gq : List IndexQuery) (m : QueryKeyMap)
    (cb : Callback) (addrs : List String)
    (h : ∀ a ∈ addrs, attemptResult env gq m cb a ≠ .ok ()) :
    ringLoop env gq m cb addrs =
      (.error "index gateway replicationSet clientDoQueries", addrs) := by
  induction addrs with
  | nil => rfl
  | cons addr rest ih =>
    rw [ringLoop_cons_fail env gq m cb addr rest (h addr (List.mem_cons_self _ _)),
      ih (fun a ha => h a (List.mem_cons_of_mem _ ha))]

theorem ringLoop_first_success (env : RingEnv) (gq : List IndexQuery) (m : QueryKeyMap)
    (cb : Callback) (pre : List String) (addr : String) (post : List String)
    (hpre : ∀ a ∈ pre, attemptResult env gq m cb a ≠ .ok ())
    (haddr : attemptResult env gq m cb addr = .ok ()) :
    ringLoop env gq m cb (pre ++ addr :: post) = (.ok (), pre ++ [addr]) := by
  induction pre with
  | nil => simpa using ringLoop_cons_success env gq m cb addr post haddr
  | cons b pre ih =>
    rw [List.cons_append,
      ringLoop_cons_fail env gq m cb b _ (hpre b (List.mem_cons_self _ _)),
      ih (fun a ha => hpre a (List.mem_cons_of_mem _ ha))]
    simp

/-! ## Lemmas about the row iterator -/

theorem iterAfter_i (b : grpcIter) (n : Nat) : (iterAfter b n).i = b.i + n := by
  induction n with
  | zero => simp [iterAfter]
  | succ n ih =>
    simp [iterAfter, grpcIter.next, ih]
    ring

theorem iterAfter_resp (b : grpcIter) (n : Nat) : (iterAfter b n).resp = b.resp := by
  induction n with
  | zero => rfl
  | succ n ih => simp [iterAfter, grpcIter.next, ih]

theorem rangeValue_at (b : grpcIter) (k : Nat) (h : b.i = (k : Int))
    (hk : k < b.resp.rows.length) :
    grpcIter.rangeValue b = some (Row.rangeValue (b.resp.rows.get ⟨k, hk⟩)) := by
  unfold grpcIter.rangeValue
  rw [h, if_neg (by omega)]
  simp [List.getElem?_eq_getElem hk]

theorem value_at (b : grpcIter) (k : Nat) (h : b.i = (k : Int))
    (hk : k < b.resp.rows.length) :
    grpcIter.value b = some (Row.value (b.resp.rows.get ⟨k, hk⟩)) := by
  unfold grpcIter.value
  rw [h, if_neg (by omega)]
  simp [List.getElem?_eq_getElem hk]

/-! ## Claim theorems -/

/-- Claim C1: for every query list passed to `QueryPages`, if its length is at
most 100 (the per-call cap), exactly one direct dispatch is made on the whole
list; otherwise `ceil(size/100)` jobs are created, where job `i` dispatches
exactly the contiguous slice covering indices `[i*100, min((i+1)*100, size))`,
so no single RPC call ever carries more than 100 queries. -/
theorem claim_C1_queryPages_batching (queries : List Query) :
    (queries.length ≤ maxQueriesPerGrpc → queryPagesJobs queries = [queries]) ∧
    (maxQueriesPerGrpc < queries.length →
      (queryPagesJobs queries).length =
        (queries.length + (maxQueriesPerGrpc - 1)) / maxQueriesPerGrpc ∧
      ∀ i, ∀ hi : i < (queryPagesJobs queries).length,
        (queryPagesJobs queries).get ⟨i, hi⟩ =
          goSlice queries (i * maxQueriesPerGrpc)
            (min ((i + 1) * maxQueriesPerGrpc) queries.length)) ∧
    (∀ job ∈ queryPagesJobs queries, job.length ≤ maxQueriesPerGrpc) := by
  refine ⟨queryPagesJobs_small queries,
    fun h => ⟨?_, queryPagesJobs_get_of_large queries h⟩,
    queryPagesJobs_le_cap queries⟩
  rw [queryPagesJobs_length_of_large queries h, jobsCount_eq_ceil]

/-- Witness for C1 at concrete batches of size 3 and 250. -/
theorem claim_C1_queryPages_batching_witness :
    queryPagesJobs (List.replicate 3 dummyQuery) = [List.replicate 3 dummyQuery] ∧
    (queryPagesJobs (List.replicate 250 dummyQuery)).length = 3 ∧
    (queryPagesJobs (List.replicate 250 dummyQuery)).get ⟨2, by decide⟩ =
      goSlice (List.replicate 250 dummyQuery) (2 * maxQueriesPerGrpc)
        (min ((2 + 1) * maxQueriesPerGrpc) (List.replicate 250 dummyQuery).length) ∧
    ((queryPagesJobs (List.replicate 250 dummyQuery)).get ⟨2, by decide⟩).length ≤
      maxQueriesPerGrpc := by
  have hbig : maxQueriesPerGrpc < (List.replicate 250 dummyQuery).length := by
    simp [maxQueriesPerGrpc]
  refine ⟨(claim_C1_queryPages_batching _).1 (by simp [maxQueriesPerGrpc]), ?_, ?_, ?_⟩
  · rw [((claim_C1_queryPages_batching _).2.1 hbig).1]
    simp [maxQueriesPerGrpc]
  · exact ((claim_C1_queryPages_batching _).2.1 hbig).2 2 (by decide)
  · exact (claim_C1_queryPages_batching _).2.2 _ (List.get_mem _ _ _)

/-- Claim C2: in ring mode, for every resolved and shuffled replica address
list, addresses are tried in order; a connection-acquisition or RPC/stream
failure for one address skips that address (tried exactly once) and moves to
the next; the first fully successful address ends the loop with success and
no later address is contacted; if every address fails the loop returns the
distinct replication-set exhaustion error. -/
theorem claim_C2_ring_failover (env : RingEnv) (gq : List IndexQuery)
    (m : QueryKeyMap) (cb : Callback) :
    (∀ addrs : List String, (∀ a ∈ addrs, attemptResult env gq m cb a ≠ .ok ()) →
      ringLoop env gq m cb addrs =
        (.error "index gateway replicationSet clientDoQueries", addrs)) ∧
    (∀ (pre : List String) (addr : String) (post : List String),
      (∀ a ∈ pre, attemptResult env gq m cb a ≠ .ok ()) →
      attemptResult env gq m cb addr = .ok () →
      ringLoop env gq m cb (pre ++ addr :: post) = (.ok (), pre ++ [addr])) :=
  ⟨ringLoop_all_fail env gq m cb, ringLoop_first_success env gq m cb⟩

/-- Witness for C2: only address `b` works; `[a, c]` exhausts with the fixed
error, `[a, b, c]` succeeds at `b` without contacting `c`. -/
theorem claim_C2_ring_failover_witness :
    ringLoop witnessRingEnv [] [] (fun _ _ => true) ["a", "c"] =
      (.error "index gateway replicationSet clientDoQueries", ["a", "c"]) ∧
    ringLoop witnessRingEnv [] [] (fun _ _ => true) ["a", "b", "c"] =
      (.ok (), ["a", "b"]) := by
  have ha : attemptResult witnessRingEnv [] [] (fun _ _ => true) "a" =
      .error "dial failure" := rfl
  have hc : attemptResult witnessRingEnv [] [] (fun _ _ => true) "c" =
      .error "dial failure" := rfl
  have hb : attemptResult witnessRingEnv [] [] (fun _ _ => true) "b" = .ok () := rfl
  constructor
  · apply (claim_C2_ring_failover witnessRingEnv [] [] _).1
    intro a hmem
    have : a = "a" ∨ a = "c" := by simpa using hmem
    rcases this with rfl | rfl
    · rw [ha]; exact fun h => Except.noConfusion h
    · rw [hc]; exact fun h => Except.noConfusion h
  · apply (claim_C2_ring_failover witnessRingEnv [] [] _).2 ["a"] "b" ["c"] ?_ hb
    intro a hmem
    have : a = "a" := by simpa using hmem
    subst this
    rw [ha]; exact fun h => Except.noConfusion h

/-- Claim C3: during stream consumption, a received response unit whose
correlation key is not in the call's query-key map makes the call return the
correlation error immediately: the callback is not invoked for that unit and
no later event of the stream is processed. -/
theorem claim_C3_unknown_key_fatal (m : QueryKeyMap) (cb : Callback)
    (pre post : List RecvEvent) (r : QueryIndexResponse)
    (hpre : ConsumesAll m cb pre) (hr : lookupQK m r.queryKey = none) :
    consumeStream m cb (pre ++ RecvEvent.resp r :: post) =
      (.error ("unexpected " ++ r.queryKey ++ " QueryKey received"),
        deliveredOf m pre) := by
  rw [consumeStream_append_of_consumes m cb pre _ hpre]
  simp [consumeStream, hr]

/-- Witness for C3: a known-key unit, then an unknown-key unit, then another
unit that is never reached. -/
theorem claim_C3_unknown_key_fatal_witness :
    consumeStream [("h1", witnessQuery1)] (fun _ _ => true)
      ([RecvEvent.resp { queryKey := "h1", rows := [] }] ++
        RecvEvent.resp { queryKey := "zzz", rows := [] } ::
          [RecvEvent.resp { queryKey := "h1", rows := [] }]) =
      (.error ("unexpected " ++ "zzz" ++ " QueryKey received"),
        deliveredOf [("h1", witnessQuery1)]
          [RecvEvent.resp { queryKey := "h1", rows := [] }]) := by
  apply claim_C3_unknown_key_fatal
  · intro e he
    have : e = RecvEvent.resp { queryKey := "h1", rows := [] } := by simpa using he
    subst this
    exact ⟨{ queryKey := "h1", rows := [] }, witnessQuery1, rfl, rfl, rfl⟩
  · rfl

/-- Claim C4: when the callback returns `false` on some row group, stream
consumption stops immediately (no later event reaches the callback) and the
call returns success, not an error. -/
theorem claim_C4_callback_false_success (m : QueryKeyMap) (cb : Callback)
    (pre post : List RecvEvent) (r : QueryIndexResponse) (q : Query)
    (hpre : ConsumesAll m cb pre) (hq : lookupQK m r.queryKey = some q)
    (hfalse : cb q { resp := r } = false) :
    consumeStream m cb (pre ++ RecvEvent.resp r :: post) =
      (.ok (), deliveredOf m pre ++ [(q, r)]) := by
  rw [consumeStream_append_of_consumes m cb pre _ hpre]
  simp [consumeStream, hq, hfalse]

/-- Witness for C4: the callback continues on key `h1` and stops on key `h2`;
the third unit (which would be a fatal unknown key) is never processed. -/
theorem claim_C4_callback_false_success_witness :
    consumeStream [("h1", witnessQuery1), ("h2", witnessQuery2)]
      (fun _ rb => decide ((readBatch.resp rb).queryKey = "h1"))
      ([RecvEvent.resp { queryKey := "h1", rows := [] }] ++
        RecvEvent.resp { queryKey := "h2", rows := [] } ::
          [RecvEvent.resp { queryKey := "zzz", rows := [] }]) =
      (.ok (),
        deliveredOf [("h1", witnessQuery1), ("h2", witnessQuery2)]
          [RecvEvent.resp { queryKey := "h1", rows := [] }] ++
          [(witnessQuery2, { queryKey := "h2", rows := [] })]) := by
  apply claim_C4_callback_false_success
  · intro e he
    have : e = RecvEvent.resp { queryKey := "h1", rows := [] } := by simpa using he
    subst this
    exact ⟨{ queryKey := "h1", rows := [] }, witnessQuery1, rfl, rfl, rfl⟩
  · rfl
  · rfl

/-- Claim C5: for a sub-batch whose queries produce pairwise-distinct
correlation keys, the key-to-query map has exactly one entry per input query,
each key mapping to its query, and any successful lookup resolves to a query
of the sub-batch. -/
theorem claim_C5_query_key_map (qk : Query → String) (queries : List Query)
    (hnd : (queries.map qk).Nodup) :
    (buildQueryKeyMap qk queries).length = queries.length ∧
    (∀ q ∈ queries, lookupQK (buildQueryKeyMap qk queries) (qk q) = some q) ∧
    (∀ k v, lookupQK (buildQueryKeyMap qk queries) k = some v → v ∈ queries) :=
  ⟨length_buildQueryKeyMap_of_nodup qk queries hnd,
    fun q hq => lookupQK_buildQueryKeyMap_of_nodup qk queries hnd q hq,
    fun k v h => (lookupQK_buildQueryKeyMap_mem qk queries k v h).1⟩

/-- Witness for C5 with the hash-value codec on two distinct queries. -/
theorem claim_C5_query_key_map_witness :
    (buildQueryKeyMap Query.hashValue [witnessQuery1, witnessQuery2]).length = 2 ∧
    lookupQK (buildQueryKeyMap Query.hashValue [witnessQuery1, witnessQuery2])
      (Query.hashValue witnessQuery1) = some witnessQuery1 ∧
    witnessQuery1 ∈ [witnessQuery1, witnessQuery2] := by
  have h := claim_C5_query_key_map Query.hashValue [witnessQuery1, witnessQuery2]
    (by decide)
  exact ⟨h.1, h.2.1 witnessQuery1 (by simp), h.2.2 "h1" witnessQuery1 rfl⟩

/-- Claim C6: in ring mode, a tenant-extraction failure or a ring-resolution
failure (token from the tenant ID with no label, `WriteNoExtend` policy)
returns a wrapped error immediately, with no replica contacted. -/
theorem claim_C6_ring_prep_failure (env : RingEnv) (gq : List IndexQuery)
    (m : QueryKeyMap) (cb : Callback) :
    (∀ e, env.tenantID = .error e →
      ringModeDoQueries env gq m cb =
        (.error ("index gateway client get tenant ID: " ++ e), [])) ∧
    (∀ u e, env.tenantID = .ok u →
      env.ringGet (env.tokenFor u "") RingPolicy.writeNoExtend = .error e →
      ringModeDoQueries env gq m cb = (.error ("index gateway get ring: " ++ e), [])) := by
  constructor
  · intro e he
    simp [ringModeDoQueries, he]
  · intro u e hu hr
    simp [ringModeDoQueries, hu, hr]

/-- Witness for C6 with one environment per failure mode. -/
theorem claim_C6_ring_prep_failure_witness :
    ringModeDoQueries tenantFailEnv [] [] (fun _ _ => true) =
      (.error ("index gateway client get tenant ID: " ++ "no org id"), []) ∧
    ringModeDoQueries ringFailEnv [] [] (fun _ _ => true) =
      (.error ("index gateway get ring: " ++ "at least 1 healthy replica required"), []) :=
  ⟨(claim_C6_ring_prep_failure tenantFailEnv [] [] _).1 "no org id" rfl,
    (claim_C6_ring_prep_failure ringFailEnv [] [] _).2 "tenant"
      "at least 1 healthy replica required" rfl rfl⟩

/-- Claim C7 counterexample: a zero-size batch does not perform zero work —
`QueryPages` takes the small-batch branch and dispatches exactly one
sub-batch (one RPC call carrying zero queries). -/
theorem claim_C7_counterexample :
    queryPagesJobs ([] : List Query) = [[]] ∧
    (queryPagesJobs ([] : List Query)).length = 1 :=
  ⟨rfl, rfl⟩

/-- Claim C7 (amended): for a query batch of size zero, `QueryPages` makes
exactly one direct dispatch — a single RPC call carrying an empty query list
— and returns success when that call opens its stream and the stream ends
without error. -/
theorem claim_C7_empty_batch_amended (qk : Query → String) (client : ClientBehavior)
    (env : RingEnv) (cb : Callback)
    (hok : client.queryIndex [] = .ok []) :
    queryPagesJobs ([] : List Query) = [[]] ∧
    buildGatewayQueries ([] : List Query) = [] ∧
    buildQueryKeyMap qk ([] : List Query) = [] ∧
    doQueries qk Mode.simpleMode client env [] cb = .ok () := by
  refine ⟨rfl, rfl, rfl, ?_⟩
  simp [doQueries, clientDoQueries, buildGatewayQueries, buildQueryKeyMap, hok,
    consumeStream]

/-- Witness for C7 (amended) with the immediately ending client. -/
theorem claim_C7_empty_batch_amended_witness :
    queryPagesJobs ([] : List Query) = [[]] ∧
    doQueries Query.hashValue Mode.simpleMode okClient witnessRingEnv []
      (fun _ _ => true) = .ok () := by
  have h := claim_C7_empty_batch_amended Query.hashValue okClient witnessRingEnv
    (fun _ _ => true) rfl
  exact ⟨h.1, h.2.2.2⟩

/-- Claim C8: the iterator of a `readBatch` over `n` rows starts before the
first row; the `(n+1)`-th `Next` call reports a row exactly when the new
position holds one (the first `n` calls return `true`, all later calls
`false`); on row `k` the range-value and value accessors return that row's
bytes; and `Iterator()` always yields the same fresh cursor, so the
`readBatch` can be restarted while the cursor itself is forward-only. -/
theorem claim_C8_read_batch_iterator (r : readBatch) :
    readBatch.iterator r = { i := -1, resp := readBatch.resp r } ∧
    (∀ n : Nat, (iterAfter (readBatch.iterator r) n).i = (n : Int) - 1) ∧
    (∀ n : Nat, nthNext (readBatch.iterator r) n =
      decide (n < ((readBatch.resp r).rows).length)) ∧
    (∀ k, ∀ hk : k < ((readBatch.resp r).rows).length,
      grpcIter.rangeValue (iterAfter (readBatch.iterator r) (k + 1)) =
        some (Row.rangeValue (((readBatch.resp r).rows).get ⟨k, hk⟩)) ∧
      grpcIter.value (iterAfter (readBatch.iterator r) (k + 1)) =
        some (Row.value (((readBatch.resp r).rows).get ⟨k, hk⟩))) := by
  have hstart : (readBatch.iterator r).i = -1 := rfl
  have hidx : ∀ n : Nat, (iterAfter (readBatch.iterator r) n).i = (n : Int) - 1 := by
    intro n
    rw [iterAfter_i, hstart]
    omega
  refine ⟨rfl, hidx, ?_, ?_⟩
  · intro n
    unfold nthNext grpcIter.next
    simp only [hidx n, iterAfter_resp]
    have hresp : (readBatch.iterator r).resp = readBatch.resp r := rfl
    rw [hresp, decide_eq_decide]
    omega
  · intro k hk
    have hresp : (iterAfter (readBatch.iterator r) (k + 1)).resp = readBatch.resp r :=
      iterAfter_resp _ _
    have hi : (iterAfter (readBatch.iterator r) (k + 1)).i = (k : Int) := by
      rw [hidx (k + 1)]
      omega
    constructor
    · unfold grpcIter.rangeValue
      rw [hi, hresp, if_neg (by omega)]
      simp [List.getElem?_eq_getElem hk]
    · unfold grpcIter.value
      rw [hi, hresp, if_neg (by omega)]
      simp [List.getElem?_eq_getElem hk]

/-- Witness for C8 on a two-row read batch. -/
theorem claim_C8_read_batch_iterator_witness :
    readBatch.iterator witnessReadBatch =
      { i := -1, resp := readBatch.resp witnessReadBatch } ∧
    nthNext (readBatch.iterator witnessReadBatch) 0 = true ∧
    nthNext (readBatch.iterator witnessReadBatch) 1 = true ∧
    nthNext (readBatch.iterator witnessReadBatch) 2 = false ∧
    nthNext (readBatch.iterator witnessReadBatch) 5 = false ∧
    grpcIter.rangeValue (iterAfter (readBatch.iterator witnessReadBatch) 1) =
      some [1] ∧
    grpcIter.value (iterAfter (readBatch.iterator witnessReadBatch) 2) =
      some [4] := by
  have h := claim_C8_read_batch_iterator witnessReadBatch
  refine ⟨h.1, ?_, ?_, ?_, ?_, ?_, ?_⟩
  · exact h.2.2.1 0
  · exact h.2.2.1 1
  · exact h.2.2.1 2
  · exact h.2.2.1 5
  · exact (h.2.2.2 0 (by decide)).1
  · exact (h.2.2.2 1 (by decide)).2

/-- Claim C9: the write-path entry points `NewWriteBatch` and `BatchWrite`
always fail fast with the deliberate `unsupported` signal and never return a
successful result. -/
theorem claim_C9_write_path_unsupported :
    newWriteBatch = .error "unsupported" ∧
    newWriteBatch ≠ .ok () ∧
    (∀ (α : Type) (batch : α),
      batchWrite batch = .error "unsupported" ∧ batchWrite batch ≠ .ok ()) := by
  refine ⟨rfl, ?_, fun α batch => ⟨rfl, ?_⟩⟩ <;>
    · intro h
      exact Except.noConfusion h

/-- Witness for C9 at a concrete batch. -/
theorem claim_C9_write_path_unsupported_witness :
    newWriteBatch = .error "unsupported" ∧
    batchWrite ([dummyQuery] : List Query) = .error "unsupported" :=
  ⟨claim_C9_write_path_unsupported.1,
    (claim_C9_write_path_unsupported.2.2 (List Query) [dummyQuery]).1⟩

/-- Claim C10: the wire request contains exactly one descriptor per input
query, in input order, with all five fields copied verbatim; a key collision
only shrinks the key-to-query map (the later query overwrites the earlier),
never the transmitted query list. -/
theorem claim_C10_wire_queries (queries : List Query) :
    (buildGatewayQueries queries).length = queries.length ∧
    (∀ i : Nat, (buildGatewayQueries queries).get? i = (queries.get? i).map toIndexQuery) ∧
    (∀ q : Query,
      IndexQuery.tableName (toIndexQuery q) = q.tableName ∧
      IndexQuery.hashValue (toIndexQuery q) = q.hashValue ∧
      IndexQuery.rangeValuePrefix (toIndexQuery q) = Query.rangeValuePrefix q ∧
      IndexQuery.rangeValueStart (toIndexQuery q) = q.rangeValueStart ∧
      IndexQuery.valueEqual (toIndexQuery q) = q.valueEqual) ∧
    (∀ (qk : Query → String) (qs : List Query) (q : Query),
      lookupQK (buildQueryKeyMap qk (qs ++ [q])) (qk q) = some q) ∧
    (∀ (qk : Query → String) (q1 q2 : Query), qk q1 = qk q2 →
      (buildQueryKeyMap qk [q1, q2]).length = 1 ∧
      (buildGatewayQueries [q1, q2]).length = 2) := by
  refine ⟨by simp [buildGatewayQueries], ?_, fun q => ⟨rfl, rfl, rfl, rfl, rfl⟩, ?_, ?_⟩
  · intro i
    simp [buildGatewayQueries]
  · intro qk qs q
    unfold buildQueryKeyMap
    rw [List.foldl_append]
    simp only [List.foldl_cons, List.foldl_nil]
    exact lookupQK_insertQK_self _ (qk q) q
  · intro qk q1 q2 heq
    constructor
    · simp [buildQueryKeyMap, insertQK, heq]
    · rfl

/-- Witness for C10 at two distinct queries whose table names collide. -/
theorem claim_C10_wire_queries_witness :
    (buildQueryKeyMap Query.tableName [witnessQuery1, witnessQuery2]).length = 1 ∧
    (buildGatewayQueries [witnessQuery1, witnessQuery2]).length = 2 :=
  (claim_C10_wire_queries []).2.2.2.2 Query.tableName witnessQuery1 witnessQuery2 rfl

end GatewayClientModel
